import Mathlib

/-!
# Verification of the AnythingLLM delivery client (retry + local fallback)

Shallow embedding of `AnythingLLMClient.send_machine_error` and
`AnythingLLMClient._store_locally` from `src/app/anythingllm_client.py`
(the copy in `src/middleware/anythingllm_client.py` is line-for-line
identical in the retry loop, the wait computation and the local store,
differing only in logging decoration, so one embedding covers both).

Modelling decisions, each tied to a line of the source:

* One HTTP attempt (`requests.post` at line 221 plus the surrounding
  `try`/`except`) is abstracted into an `AttemptEvent` supplied by an
  environment `env : Nat → AttemptEvent` (attempt index, 0-based, to what
  that attempt's POST did).  The distinguishable outcomes in the source
  are: a response with a status code and a body that either parses as
  JSON or does not (`response.json()` at line 233 raising
  `json.JSONDecodeError` at line 248), a `requests.exceptions.Timeout`
  (line 257), a `requests.exceptions.ConnectionError` (line 261), and any
  other exception (line 265).
* The parsed JSON body is only ever consumed through
  `result.get('textResponse', '')`, `result.get('sources', [])` and
  `result.get('id')` (lines 241-243), so it is modelled as the record
  `JsonBody` of exactly those three optional fields.
* The returned dictionaries (lines 238-246, 325-332, 337-341) are
  modelled as one record `Outcome` whose optional fields are `none` when
  the corresponding key is absent from that branch's dictionary.  Every
  branch of the Python function returns a dictionary (the `Optional`
  return annotation notwithstanding), which is why the embedding returns
  `Outcome` directly, never `Option Outcome`.
* The filesystem seen by `_store_locally` (lines 299-319) is a record
  `FS`: whether `os.makedirs` raises, whether `os.path.exists` holds for
  the day's JSON file, whether opening/`json.load`-ing it raises
  (this also covers a readable file whose JSON is not an array, where
  `errors.append` raises instead — the net outcome, the `except` branch
  at line 334 with the filesystem unchanged, is the same), the parsed
  array content when readable, and whether the JSON rewrite or the text
  append raises.
* `wait_time = 5 if 'Timeout' in str(sys.exc_info()[1]) else 2`
  (line 274) executes after every `except` clause of the attempt has
  exited.  In Python 3 the handled exception is cleared when its
  `except` block is left, so at line 274 `sys.exc_info()` reports the
  exception being handled by the *caller* of `send_machine_error`, if
  any — normally `(None, None, None)`, making the tested string
  `str(None) = "None"`.  The embedding passes that ambient handled
  exception in as `amb : Option String` (`none` = not called from inside
  an `except` block) and computes the wait exactly as the source line
  does.
* `time.sleep` and logging have no further observable effect; the run is
  recorded as a `TraceEntry` list (HTTP calls with their events, waits
  with their duration, the fallback invocation).
-/

/-- Substring test on `List Char`: does the list start with `pat`? -/
def startsWithL : List Char → List Char → Bool
  | [], _ => true
  | _ :: _, [] => false
  | p :: ps, c :: cs => p == c && startsWithL ps cs

/-- Substring test on `List Char`: does `pat` occur inside the list? -/
def hasSubL (pat : List Char) : List Char → Bool
  | [] => startsWithL pat []
  | c :: cs => startsWithL pat (c :: cs) || hasSubL pat cs

/-- Python's `pat in s` on strings. -/
def strContains (s pat : String) : Bool := hasSubL pat.toList s.toList

/-- Python's `str` applied to `sys.exc_info()[1]`: `str(None) = "None"`,
otherwise the exception's message. -/
def strOfExcInfo : Option String → String
  | none => "None"
  | some s => s

/-- Line 274 of `src/app/anythingllm_client.py`:
`wait_time = 5 if 'Timeout' in str(sys.exc_info()[1]) else 2`.
`amb` is the exception being handled by the caller at that point
(see the header comment): `sys.exc_info()` has already been cleared of
the attempt's own exception because its `except` block has exited. -/
def waitSeconds (amb : Option String) : Nat :=
  if strContains (strOfExcInfo amb) "Timeout" then 5 else 2

/-- The JSON body of a 200 response, as consumed by lines 241-243:
`result.get('textResponse', '')`, `result.get('sources', [])`,
`result.get('id')`. -/
structure JsonBody where
  textResponse : Option String
  sources : List String
  idField : Option String
deriving Repr, DecidableEq

/-- What one HTTP attempt (lines 221-267) observably did. -/
inductive AttemptEvent where
  /-- `requests.post` returned: status code, and the result of
  `response.json()` (`none` when the body does not parse as JSON,
  e.g. an HTML page). -/
  | resp (status : Nat) (bodyJson : Option JsonBody)
  /-- `requests.exceptions.Timeout` was raised (line 257). -/
  | timeout
  /-- `requests.exceptions.ConnectionError` was raised (line 261). -/
  | connectionError (msg : String)
  /-- any other exception was raised (line 265). -/
  | otherError (msg : String)
deriving Repr, DecidableEq

/-- How the loop body reacts to an attempt's event. -/
inductive StepClass where
  /-- lines 231-246: status 200 and the body parsed — return the api
  outcome at once. -/
  | succeedReturn (body : JsonBody)
  /-- lines 248-263: JSON decode failure on a 200 body, a non-200
  status, a timeout, or a connection error — log and keep looping. -/
  | continueRetry
  /-- lines 265-269: unexpected exception — `break`. -/
  | breakLoop
deriving Repr, DecidableEq

/-- The branch structure of lines 231-269 applied to one event. -/
def classify : AttemptEvent → StepClass
  | .resp status bodyJson =>
      if status == 200 then
        match bodyJson with
        | some b => .succeedReturn b
        | none => .continueRetry
      else .continueRetry
  | .timeout => .continueRetry
  | .connectionError _ => .continueRetry
  | .otherError _ => .breakLoop

/-- Observable events of one `send_machine_error` run. -/
inductive TraceEntry where
  /-- the POST of attempt `k` (1-based, as printed by the source) was
  issued and produced `ev`. -/
  | httpCall (k : Nat) (ev : AttemptEvent)
  /-- `time.sleep(sec)` between attempts (line 277). -/
  | wait (sec : Nat)
  /-- `_store_locally` was invoked (line 283). -/
  | localStore
deriving Repr, DecidableEq

/-- How the retry loop terminated. -/
inductive LoopExit where
  /-- the `return` at line 238: success at 1-based attempt `k`. -/
  | apiSuccess (k : Nat) (body : JsonBody)
  /-- the loop ended without that `return`: every iteration fell
  through, or the `break` at line 269 fired. -/
  | fellThrough
deriving Repr, DecidableEq

/-- The retry loop `for attempt in range(self.max_retries)` (lines
215-277) run over the remaining 0-based attempt indices.  `mr` is
`self.max_retries`; the sleep guard is `attempt < self.max_retries - 1`
(line 272, identical under Python and truncated `Nat` subtraction for
every `mr`, attempt index pair that can occur). -/
def runAttempts (env : Nat → AttemptEvent) (amb : Option String) (mr : Nat) :
    List Nat → List TraceEntry × LoopExit
  | [] => ([], .fellThrough)
  | i :: rest =>
    match classify (env i) with
    | .succeedReturn b => ([.httpCall (i + 1) (env i)], .apiSuccess (i + 1) b)
    | .breakLoop => ([.httpCall (i + 1) (env i)], .fellThrough)
    | .continueRetry =>
        (.httpCall (i + 1) (env i) ::
          ((if i < mr - 1 then [TraceEntry.wait (waitSeconds amb)] else []) ++
            (runAttempts env amb mr rest).1),
         (runAttempts env amb mr rest).2)

/-- One stored record (lines 290-297), all fields as built there. -/
structure ErrorData where
  timestamp : String
  machine : String
  code : String
  description : String
  formatted_text : String
  anythingllm_import_text : String
deriving Repr, DecidableEq

/-- Lines 287-297 of `_store_locally`: the record appended to the day's
JSON array.  `"="*60` is the 60-character rule. -/
def mkErrorData (machine code description timestamp : String) : ErrorData :=
  let formatted_text :=
    "Maschine " ++ machine ++ ": Fehler " ++ code ++ " – " ++ description ++
      " (Zeit: " ++ timestamp ++ ")"
  { timestamp := timestamp
    machine := machine
    code := code
    description := description
    formatted_text := formatted_text
    anythingllm_import_text :=
      "[Maschinenfehler OPC UA]\n" ++ formatted_text ++ "\n\nMaschine: " ++
        machine ++ "\nFehlercode: " ++ code ++ "\nBeschreibung: " ++
        description ++ "\nZeitstempel: " ++ timestamp ++ "\n" ++
        String.mk (List.replicate 60 '=') }

/-- The filesystem as `_store_locally` can observe and change it
(header comment explains each field). -/
structure FS where
  /-- `os.makedirs("/app/data", exist_ok=True)` raises with this
  message (line 300). -/
  mkdirsRaises : Option String
  /-- `os.path.exists(json_filename)` (line 305). -/
  fileExists : Bool
  /-- opening or `json.load`-ing the existing JSON file raises
  (lines 306-307); only consulted when `fileExists`. -/
  readRaises : Option String
  /-- the parsed array when the file exists and is readable. -/
  content : List ErrorData
  /-- rewriting the JSON file raises (lines 313-314). -/
  writeRaises : Option String
  /-- appending to the import text file raises (lines 318-319). -/
  appendRaises : Option String
  /-- current content of the day's import text file. -/
  txtContent : String
deriving Repr, DecidableEq

/-- The result dictionaries of `send_machine_error` / `_store_locally`.
Optional fields are `none` when the branch's dictionary has no such
key. -/
structure Outcome where
  success : Bool
  method : String
  api_response : Option Bool := none
  anythingllm_response : Option String := none
  sources : Option (List String) := none
  response_id : Option (Option String) := none
  attempt : Option Nat := none
  local_storage : Option Bool := none
  json_file : Option String := none
  import_file : Option String := none
  error : Option String := none
deriving Repr, DecidableEq

/-- The dictionary returned at lines 238-246. -/
def apiOutcome (k : Nat) (result : JsonBody) : Outcome :=
  { success := true
    api_response := some true
    anythingllm_response := some (result.textResponse.getD "")
    sources := some result.sources
    response_id := some result.idField
    attempt := some k
    method := "api" }

/-- The dictionary returned at lines 325-332. -/
def localOutcome (jsonFile importFile : String) : Outcome :=
  { success := true
    local_storage := some true
    api_response := some false
    json_file := some jsonFile
    import_file := some importFile
    method := "local_storage" }

/-- The dictionary returned at lines 337-341. -/
def failedOutcome (e : String) : Outcome :=
  { success := false
    error := some e
    method := "failed" }

/-- `AnythingLLMClient._store_locally` (lines 285-341).  `timestamp` is
the `datetime.now().isoformat()` taken at line 287 and `dateStr` the
`datetime.now().strftime('%Y%m%d')` of line 301.  Returns the outcome
dictionary and the filesystem after the call (when the JSON rewrite
succeeded but the text append raised, the JSON file keeps its new
content, as in the source). -/
def storeLocally (fs : FS) (machine code description timestamp dateStr : String) :
    Outcome × FS :=
  let error_data := mkErrorData machine code description timestamp
  let json_filename := "/app/data/machine_errors_" ++ dateStr ++ ".json"
  let import_filename := "/app/data/anythingllm_import_" ++ dateStr ++ ".txt"
  match fs.mkdirsRaises with
  | some e => (failedOutcome e, fs)
  | none =>
    match
      (if fs.fileExists then
        match fs.readRaises with
        | some e => Except.error e
        | none => Except.ok fs.content
      else Except.ok ([] : List ErrorData)) with
    | .error e => (failedOutcome e, fs)
    | .ok errors =>
      let errors := errors ++ [error_data]
      match fs.writeRaises with
      | some e => (failedOutcome e, fs)
      | none =>
        let fs1 : FS := { fs with fileExists := true, content := errors }
        match fs.appendRaises with
        | some e => (failedOutcome e, fs1)
        | none =>
          (localOutcome json_filename import_filename,
           { fs1 with
              txtContent :=
                fs1.txtContent ++ "\n" ++ error_data.anythingllm_import_text ++ "\n" })

/-- Result of one `send_machine_error` call: the returned dictionary,
the filesystem afterwards, and the observable trace. -/
structure RunResult where
  outcome : Outcome
  fs : FS
  trace : List TraceEntry
deriving Repr, DecidableEq

/-- `AnythingLLMClient.send_machine_error` (lines 203-283): run the
retry loop over `range(mr)`; on the early `return` (line 238) hand back
the api dictionary, otherwise (loop exhausted, or `break` at line 269)
fall through to `_store_locally` (line 283).  `storeTs` is the
timestamp `_store_locally` takes for itself at line 287. -/
def sendMachineError (mr : Nat) (amb : Option String) (env : Nat → AttemptEvent)
    (fs : FS) (machine code description storeTs dateStr : String) : RunResult :=
  let res := runAttempts env amb mr (List.range mr)
  match res.2 with
  | .apiSuccess k body => { outcome := apiOutcome k body, fs := fs, trace := res.1 }
  | .fellThrough =>
      let p := storeLocally fs machine code description storeTs dateStr
      { outcome := p.1, fs := p.2, trace := res.1 ++ [.localStore] }

/-- A fully healthy filesystem with no file for the day yet. -/
def fsOk : FS :=
  { mkdirsRaises := none
    fileExists := false
    readRaises := none
    content := []
    writeRaises := none
    appendRaises := none
    txtContent := "" }

/-- "Successful HTTP call": the POST came back with status 200 and a
JSON-parseable body, i.e. the event the loop classifies as the success
branch (the condition of lines 231-233). -/
def isSuccCall : TraceEntry → Bool
  | .httpCall _ ev =>
      match classify ev with
      | .succeedReturn _ => true
      | _ => false
  | _ => false

/-- A typical healthy reply body: `{"textResponse": "ack", "sources": [], "id": "r1"}`. -/
def bodyAck : JsonBody :=
  { textResponse := some "ack", sources := [], idField := some "r1" }

/-- A 200 reply body that is valid JSON but has no `textResponse` key. -/
def bodyNoText : JsonBody :=
  { textResponse := none, sources := [], idField := none }

/-- Endpoint behaviour: HTTP 500 once, then success, then timeouts. -/
def envFailThenOk : Nat → AttemptEvent
  | 0 => .resp 500 none
  | 1 => .resp 200 (some bodyAck)
  | _ => .timeout

/-- Endpoint behaviour: success on every attempt. -/
def envAlwaysOk : Nat → AttemptEvent := fun _ => .resp 200 (some bodyAck)

/-- Endpoint behaviour: HTTP 500 on every attempt. -/
def envAlways500 : Nat → AttemptEvent := fun _ => .resp 500 none

/-- Endpoint behaviour: timeout on every attempt. -/
def envAlwaysTimeout : Nat → AttemptEvent := fun _ => .timeout

/-- Endpoint behaviour: an unexpected (non-retryable) exception on the
first attempt; later attempts, were they issued, would succeed. -/
def envFatalFirst : Nat → AttemptEvent
  | 0 => .otherError "KeyError: misconfigured payload"
  | _ => .resp 200 (some bodyAck)

/-- Endpoint behaviour: a 200 response with an HTML (non-JSON) body on
the first attempt, then HTTP 500. -/
def envHtmlFirst : Nat → AttemptEvent
  | 0 => .resp 200 none
  | _ => .resp 500 none

/-- Endpoint behaviour: a 200 JSON body that lacks `textResponse`. -/
def envNoTextBody : Nat → AttemptEvent := fun _ => .resp 200 (some bodyNoText)

/-- Endpoint behaviour: connection refused on every attempt. -/
def envConnRefused : Nat → AttemptEvent := fun _ => .connectionError "ConnectionRefusedError"

/-- A filesystem where creating `/app/data` raises. -/
def fsBroken : FS :=
  { fsOk with mkdirsRaises := some "PermissionError: [Errno 13] /app/data" }

/-- A filesystem where the day's JSON file exists but opening/reading it
raises. -/
def fsUnreadable : FS :=
  { fsOk with
      fileExists := true
      readRaises := some "PermissionError: [Errno 13] machine_errors.json" }

example : waitSeconds none = 2 := by decide

example : waitSeconds (some "requests.exceptions.Timeout: timed out") = 5 := by decide

example :
    (sendMachineError 2 none (fun _ => .resp 200 (some ⟨some "ack", [], some "r1"⟩))
      fsOk "Press_01" "E001" "Pressure low" "t" "20250101").outcome.attempt = some 1 := by
  decide

example :
    (sendMachineError 2 none (fun _ => .resp 500 none)
      fsOk "Press_01" "E001" "Pressure low" "t" "20250101").outcome.method =
      "local_storage" := by
  decide

/-! ## Basic lemmas about the retry loop -/

theorem classify_succeedReturn_iff (ev : AttemptEvent) (b : JsonBody) :
    classify ev = .succeedReturn b ↔ ev = .resp 200 (some b) := by
  cases ev with
  | resp st body =>
    cases body with
    | none => by_cases h : st = 200 <;> simp [classify, h]
    | some b2 => by_cases h : st = 200 <;> simp [classify, h]
  | timeout => simp [classify]
  | connectionError m => simp [classify]
  | otherError m => simp [classify]

theorem classify_breakLoop_iff (ev : AttemptEvent) :
    classify ev = .breakLoop ↔ ∃ m, ev = .otherError m := by
  cases ev with
  | resp st body =>
    cases body with
    | none => by_cases h : st = 200 <;> simp [classify, h]
    | some b2 => by_cases h : st = 200 <;> simp [classify, h]
  | timeout => simp [classify]
  | connectionError m => simp [classify]
  | otherError m => simp [classify]

theorem isSuccCall_httpCall (j : Nat) (ev : AttemptEvent) :
    isSuccCall (.httpCall j ev) = true ↔ ∃ b, classify ev = .succeedReturn b := by
  cases h : classify ev <;> simp [isSuccCall, h]

theorem runAttempts_cons_succeed {env : Nat → AttemptEvent} {i : Nat} {b : JsonBody}
    (amb : Option String) (mr : Nat) (rest : List Nat)
    (h : classify (env i) = .succeedReturn b) :
    runAttempts env amb mr (i :: rest) =
      ([.httpCall (i + 1) (env i)], .apiSuccess (i + 1) b) := by
  unfold runAttempts
  rw [h]

theorem runAttempts_cons_break {env : Nat → AttemptEvent} {i : Nat}
    (amb : Option String) (mr : Nat) (rest : List Nat)
    (h : classify (env i) = .breakLoop) :
    runAttempts env amb mr (i :: rest) =
      ([.httpCall (i + 1) (env i)], .fellThrough) := by
  unfold runAttempts
  rw [h]

theorem runAttempts_cons_retry {env : Nat → AttemptEvent} {i : Nat}
    (amb : Option String) (mr : Nat) (rest : List Nat)
    (h : classify (env i) = .continueRetry) :
    runAttempts env amb mr (i :: rest) =
      (.httpCall (i + 1) (env i) ::
        ((if i < mr - 1 then [TraceEntry.wait (waitSeconds amb)] else []) ++
          (runAttempts env amb mr rest).1),
       (runAttempts env amb mr rest).2) := by
  conv_lhs => rw [runAttempts]
  rw [h]

theorem runAttempts_no_localStore (env : Nat → AttemptEvent) (amb : Option String)
    (mr : Nat) : ∀ l : List Nat, TraceEntry.localStore ∉ (runAttempts env amb mr l).1 := by
  intro l
  induction l with
  | nil => simp [runAttempts]
  | cons i rest ih =>
    cases hc : classify (env i) with
    | succeedReturn b => rw [runAttempts_cons_succeed amb mr rest hc]; simp
    | breakLoop => rw [runAttempts_cons_break amb mr rest hc]; simp
    | continueRetry =>
      rw [runAttempts_cons_retry amb mr rest hc]
      simp only [List.mem_cons, List.mem_append]
      push_neg
      refine ⟨by simp, ?_, ih⟩
      split <;> simp

theorem runAttempts_call_mem (env : Nat → AttemptEvent) (amb : Option String)
    (mr : Nat) : ∀ (l : List Nat) (j : Nat) (ev : AttemptEvent),
      TraceEntry.httpCall j ev ∈ (runAttempts env amb mr l).1 →
      ∃ i ∈ l, j = i + 1 ∧ ev = env i := by
  intro l
  induction l with
  | nil => simp [runAttempts]
  | cons i rest ih =>
    intro j ev hm
    cases hc : classify (env i) with
    | succeedReturn b =>
      rw [runAttempts_cons_succeed amb mr rest hc] at hm
      simp at hm
      exact ⟨i, by simp, hm.1, hm.2⟩
    | breakLoop =>
      rw [runAttempts_cons_break amb mr rest hc] at hm
      simp at hm
      exact ⟨i, by simp, hm.1, hm.2⟩
    | continueRetry =>
      rw [runAttempts_cons_retry amb mr rest hc] at hm
      simp only [List.mem_cons, List.mem_append] at hm
      rcases hm with h1 | h2 | h3
      · rw [TraceEntry.httpCall.injEq] at h1
        exact ⟨i, by simp, h1.1, h1.2⟩
      · exfalso; revert h2; split <;> simp
      · obtain ⟨i', hi', hji', hev'⟩ := ih j ev h3
        exact ⟨i', by simp [hi'], hji', hev'⟩

theorem runAttempts_apiSuccess_inv (env : Nat → AttemptEvent) (amb : Option String)
    (mr : Nat) : ∀ (l : List Nat) (k : Nat) (b : JsonBody),
      (runAttempts env amb mr l).2 = .apiSuccess k b →
      ∃ i ∈ l, k = i + 1 ∧ classify (env i) = .succeedReturn b := by
  intro l
  induction l with
  | nil => simp [runAttempts]
  | cons i rest ih =>
    intro k b hx
    cases hc : classify (env i) with
    | succeedReturn b2 =>
      rw [runAttempts_cons_succeed amb mr rest hc] at hx
      simp only at hx
      rw [LoopExit.apiSuccess.injEq] at hx
      exact ⟨i, by simp, hx.1.symm, by rw [hc, hx.2]⟩
    | breakLoop =>
      rw [runAttempts_cons_break amb mr rest hc] at hx
      simp at hx
    | continueRetry =>
      rw [runAttempts_cons_retry amb mr rest hc] at hx
      simp only at hx
      obtain ⟨i', hi', hk', hcl'⟩ := ih k b hx
      exact ⟨i', by simp [hi'], hk', hcl'⟩

theorem runAttempts_filter_succ (env : Nat → AttemptEvent) (amb : Option String)
    (mr : Nat) : ∀ l : List Nat,
      ((runAttempts env amb mr l).2 = LoopExit.fellThrough →
        (runAttempts env amb mr l).1.filter isSuccCall = []) ∧
      (∀ k b, (runAttempts env amb mr l).2 = .apiSuccess k b →
        ((runAttempts env amb mr l).1.filter isSuccCall).length = 1) := by
  intro l
  induction l with
  | nil => simp [runAttempts]
  | cons i rest ih =>
    cases hc : classify (env i) with
    | succeedReturn b =>
      rw [runAttempts_cons_succeed amb mr rest hc]
      constructor
      · intro hx; simp at hx
      · intro k b2 _
        simp [List.filter, isSuccCall, hc]
    | breakLoop =>
      rw [runAttempts_cons_break amb mr rest hc]
      constructor
      · intro _
        simp [List.filter, isSuccCall, hc]
      · intro k b2 hx; simp at hx
    | continueRetry =>
      rw [runAttempts_cons_retry amb mr rest hc]
      have hhead : isSuccCall (TraceEntry.httpCall (i + 1) (env i)) = false := by
        simp [isSuccCall, hc]
      have hwaits :
          (if i < mr - 1 then [TraceEntry.wait (waitSeconds amb)] else []).filter
            isSuccCall = [] := by
        split <;> simp [isSuccCall]
      constructor
      · intro hx
        simp only at hx
        simp only [List.filter_cons, hhead, List.filter_append, hwaits, ih.1 hx,
          List.nil_append, Bool.false_eq_true, if_false]
      · intro k b2 hx
        simp only at hx
        simp only [List.filter_cons, hhead, List.filter_append, hwaits,
          List.nil_append, Bool.false_eq_true, if_false]
        exact ih.2 k b2 hx

theorem runAttempts_reach_succeed (env : Nat → AttemptEvent) (amb : Option String)
    (mr : Nat) (b : JsonBody) :
    ∀ (n s t : Nat), s ≤ t → t < s + n →
      (∀ j, s ≤ j → j < t → classify (env j) = .continueRetry) →
      classify (env t) = .succeedReturn b →
      (runAttempts env amb mr (List.range' s n)).2 = .apiSuccess (t + 1) b ∧
      (∀ j ev, TraceEntry.httpCall j ev ∈ (runAttempts env amb mr (List.range' s n)).1 →
        j ≤ t + 1) := by
  intro n
  induction n with
  | zero => intro s t h1 h2 _ _; omega
  | succ n ih =>
    intro s t h1 h2 hr hs
    rw [List.range'_succ]
    by_cases hst : s = t
    · subst hst
      rw [runAttempts_cons_succeed amb mr _ hs]
      refine ⟨rfl, ?_⟩
      intro j ev hm
      simp at hm
      omega
    · have hlt : s < t := lt_of_le_of_ne h1 hst
      have hcs : classify (env s) = .continueRetry := hr s le_rfl hlt
      rw [runAttempts_cons_retry amb mr _ hcs]
      have hrec := ih (s + 1) t (by omega) (by omega)
        (fun j hj1 hj2 => hr j (by omega) hj2) hs
      refine ⟨hrec.1, ?_⟩
      intro j ev hm
      simp only [List.mem_cons, List.mem_append] at hm
      rcases hm with h1' | h2' | h3'
      · rw [TraceEntry.httpCall.injEq] at h1'
        omega
      · exfalso; revert h2'; split <;> simp
      · exact hrec.2 j ev h3'

theorem runAttempts_reach_break (env : Nat → AttemptEvent) (amb : Option String)
    (mr : Nat) :
    ∀ (n s t : Nat), s ≤ t → t < s + n →
      (∀ j, s ≤ j → j < t → classify (env j) = .continueRetry) →
      classify (env t) = .breakLoop →
      (runAttempts env amb mr (List.range' s n)).2 = .fellThrough ∧
      ∃ pre, (runAttempts env amb mr (List.range' s n)).1 =
          pre ++ [TraceEntry.httpCall (t + 1) (env t)] ∧
        ∀ j ev, TraceEntry.httpCall j ev ∈ pre → j ≤ t := by
  intro n
  induction n with
  | zero => intro s t h1 h2 _ _; omega
  | succ n ih =>
    intro s t h1 h2 hr hs
    rw [List.range'_succ]
    by_cases hst : s = t
    · subst hst
      rw [runAttempts_cons_break amb mr _ hs]
      exact ⟨rfl, [], by simp, by simp⟩
    · have hlt : s < t := lt_of_le_of_ne h1 hst
      have hcs : classify (env s) = .continueRetry := hr s le_rfl hlt
      rw [runAttempts_cons_retry amb mr _ hcs]
      have hrec := ih (s + 1) t (by omega) (by omega)
        (fun j hj1 hj2 => hr j (by omega) hj2) hs
      obtain ⟨pre, hpre, hprecalls⟩ := hrec.2
      refine ⟨hrec.1, TraceEntry.httpCall (s + 1) (env s) ::
        ((if s < mr - 1 then [TraceEntry.wait (waitSeconds amb)] else []) ++ pre), ?_, ?_⟩
      · simp only [hpre, List.cons_append, List.append_assoc]
      · intro j ev hm
        simp only [List.mem_cons, List.mem_append] at hm
        rcases hm with h1' | h2' | h3'
        · rw [TraceEntry.httpCall.injEq] at h1'
          omega
        · exfalso; revert h2'; split <;> simp
        · exact hprecalls j ev h3'

theorem runAttempts_reach_call (env : Nat → AttemptEvent) (amb : Option String)
    (mr : Nat) :
    ∀ (n s t : Nat), s ≤ t → t < s + n →
      (∀ j, s ≤ j → j < t → classify (env j) = .continueRetry) →
      TraceEntry.httpCall (t + 1) (env t) ∈ (runAttempts env amb mr (List.range' s n)).1 := by
  intro n
  induction n with
  | zero => intro s t h1 h2 _; omega
  | succ n ih =>
    intro s t h1 h2 hr
    rw [List.range'_succ]
    by_cases hst : s = t
    · subst hst
      cases hc : classify (env s) with
      | succeedReturn b => rw [runAttempts_cons_succeed amb mr _ hc]; simp
      | breakLoop => rw [runAttempts_cons_break amb mr _ hc]; simp
      | continueRetry => rw [runAttempts_cons_retry amb mr _ hc]; simp
    · have hlt : s < t := lt_of_le_of_ne h1 hst
      have hcs : classify (env s) = .continueRetry := hr s le_rfl hlt
      rw [runAttempts_cons_retry amb mr _ hcs]
      have hrec := ih (s + 1) t (by omega) (by omega)
        (fun j hj1 hj2 => hr j (by omega) hj2)
      simp only [List.mem_cons, List.mem_append]
      exact Or.inr (Or.inr hrec)

theorem runAttempts_fellThrough_inv (env : Nat → AttemptEvent) (amb : Option String)
    (mr : Nat) :
    ∀ (n s : Nat), (runAttempts env amb mr (List.range' s n)).2 = .fellThrough →
      (∀ i, s ≤ i → i < s + n → classify (env i) = .continueRetry) ∨
      (∃ i, s ≤ i ∧ i < s + n ∧ classify (env i) = .breakLoop ∧
        ∀ j, s ≤ j → j < i → classify (env j) = .continueRetry) := by
  intro n
  induction n with
  | zero => intro s _; left; intro i h1 h2; omega
  | succ n ih =>
    intro s hx
    rw [List.range'_succ] at hx
    cases hc : classify (env s) with
    | succeedReturn b =>
      rw [runAttempts_cons_succeed amb mr _ hc] at hx
      simp at hx
    | breakLoop =>
      right
      exact ⟨s, le_rfl, by omega, hc, fun j hj1 hj2 => absurd hj2 (by omega)⟩
    | continueRetry =>
      rw [runAttempts_cons_retry amb mr _ hc] at hx
      simp only at hx
      rcases ih (s + 1) hx with hall | ⟨i, hi1, hi2, hib, hibelow⟩
      · left
        intro i h1 h2
        rcases Nat.eq_or_lt_of_le h1 with heq | hlt
        · rwa [← heq]
        · exact hall i hlt (by omega)
      · right
        refine ⟨i, by omega, by omega, hib, ?_⟩
        intro j hj1 hj2
        rcases Nat.eq_or_lt_of_le hj1 with heq | hlt
        · rwa [← heq]
        · exact hibelow j hlt hj2

/-! ## Lemmas about the local store -/

theorem storeLocally_fail_mkdirs (fs : FS) (m c d ts date e : String)
    (h : fs.mkdirsRaises = some e) :
    storeLocally fs m c d ts date = (failedOutcome e, fs) := by
  unfold storeLocally
  rw [h]

theorem storeLocally_fail_read (fs : FS) (m c d ts date e : String)
    (h1 : fs.mkdirsRaises = none) (h2 : fs.fileExists = true)
    (h3 : fs.readRaises = some e) :
    storeLocally fs m c d ts date = (failedOutcome e, fs) := by
  unfold storeLocally
  rw [h1, h2, h3]
  simp

theorem storeLocally_fail_write (fs : FS) (m c d ts date e : String)
    (h1 : fs.mkdirsRaises = none) (h2 : fs.fileExists = true → fs.readRaises = none)
    (h3 : fs.writeRaises = some e) :
    storeLocally fs m c d ts date = (failedOutcome e, fs) := by
  unfold storeLocally
  rw [h1, h3]
  by_cases hfe : fs.fileExists = true
  · rw [hfe, h2 hfe]
    simp
  · have hfe' : fs.fileExists = false := by simpa using hfe
    rw [hfe']
    simp

theorem storeLocally_fail_append (fs : FS) (m c d ts date e : String)
    (h1 : fs.mkdirsRaises = none) (h2 : fs.fileExists = true → fs.readRaises = none)
    (h3 : fs.writeRaises = none) (h4 : fs.appendRaises = some e) :
    storeLocally fs m c d ts date =
      (failedOutcome e,
       { fs with
          fileExists := true,
          content := (if fs.fileExists then fs.content else []) ++ [mkErrorData m c d ts] }) := by
  unfold storeLocally
  rw [h1, h3, h4]
  by_cases hfe : fs.fileExists = true
  · rw [hfe, h2 hfe]
    simp
  · have hfe' : fs.fileExists = false := by simpa using hfe
    rw [hfe']
    simp

theorem storeLocally_ok (fs : FS) (m c d ts date : String)
    (h1 : fs.mkdirsRaises = none) (h2 : fs.fileExists = true → fs.readRaises = none)
    (h3 : fs.writeRaises = none) (h4 : fs.appendRaises = none) :
    storeLocally fs m c d ts date =
      (localOutcome ("/app/data/machine_errors_" ++ date ++ ".json")
        ("/app/data/anythingllm_import_" ++ date ++ ".txt"),
       { fs with
          fileExists := true,
          content := (if fs.fileExists then fs.content else []) ++ [mkErrorData m c d ts],
          txtContent := fs.txtContent ++ "\n" ++
            (mkErrorData m c d ts).anythingllm_import_text ++ "\n" }) := by
  unfold storeLocally
  rw [h1, h3, h4]
  by_cases hfe : fs.fileExists = true
  · rw [hfe, h2 hfe]
    simp
  · have hfe' : fs.fileExists = false := by simpa using hfe
    rw [hfe']
    simp

theorem optionEqNoneOrSome {α : Type} (o : Option α) : o = none ∨ ∃ x, o = some x := by
  cases o with
  | none => exact Or.inl rfl
  | some x => exact Or.inr ⟨x, rfl⟩

theorem storeLocally_cases (fs : FS) (m c d ts date : String) :
    (storeLocally fs m c d ts date =
      (localOutcome ("/app/data/machine_errors_" ++ date ++ ".json")
        ("/app/data/anythingllm_import_" ++ date ++ ".txt"),
       { fs with
          fileExists := true,
          content := (if fs.fileExists then fs.content else []) ++ [mkErrorData m c d ts],
          txtContent := fs.txtContent ++ "\n" ++
            (mkErrorData m c d ts).anythingllm_import_text ++ "\n" }) ∧
      fs.mkdirsRaises = none ∧ (fs.fileExists = true → fs.readRaises = none) ∧
      fs.writeRaises = none ∧ fs.appendRaises = none) ∨
    (∃ e, (storeLocally fs m c d ts date).1 = failedOutcome e) := by
  rcases optionEqNoneOrSome fs.mkdirsRaises with hm | ⟨e, hm⟩
  · by_cases hfe : fs.fileExists = true
    · rcases optionEqNoneOrSome fs.readRaises with hr | ⟨e, hr⟩
      · rcases optionEqNoneOrSome fs.writeRaises with hw | ⟨e, hw⟩
        · rcases optionEqNoneOrSome fs.appendRaises with ha | ⟨e, ha⟩
          · exact Or.inl ⟨storeLocally_ok fs m c d ts date hm (fun _ => hr) hw ha,
              hm, fun _ => hr, hw, ha⟩
          · exact Or.inr ⟨e, by
              rw [storeLocally_fail_append fs m c d ts date e hm (fun _ => hr) hw ha]⟩
        · exact Or.inr ⟨e, by
            rw [storeLocally_fail_write fs m c d ts date e hm (fun _ => hr) hw]⟩
      · exact Or.inr ⟨e, by
          rw [storeLocally_fail_read fs m c d ts date e hm hfe hr]⟩
    · have hfe' : fs.fileExists = false := by simpa using hfe
      have h2 : fs.fileExists = true → fs.readRaises = none := by
        intro hx; rw [hx] at hfe'; cases hfe'
      rcases optionEqNoneOrSome fs.writeRaises with hw | ⟨e, hw⟩
      · rcases optionEqNoneOrSome fs.appendRaises with ha | ⟨e, ha⟩
        · exact Or.inl ⟨storeLocally_ok fs m c d ts date hm h2 hw ha, hm, h2, hw, ha⟩
        · exact Or.inr ⟨e, by
            rw [storeLocally_fail_append fs m c d ts date e hm h2 hw ha]⟩
      · exact Or.inr ⟨e, by
          rw [storeLocally_fail_write fs m c d ts date e hm h2 hw]⟩
  · exact Or.inr ⟨e, by rw [storeLocally_fail_mkdirs fs m c d ts date e hm]⟩

theorem storeLocally_method_cases (fs : FS) (m c d ts date : String) :
    (storeLocally fs m c d ts date).1.method = "local_storage" ∨
    (storeLocally fs m c d ts date).1.method = "failed" := by
  rcases storeLocally_cases fs m c d ts date with ⟨heq, -⟩ | ⟨e, heq⟩
  · left; rw [heq]; rfl
  · right; rw [heq]; rfl

theorem storeLocally_failed_char (fs : FS) (m c d ts date : String)
    (h : (storeLocally fs m c d ts date).1.method = "failed") :
    (storeLocally fs m c d ts date).1.success = false ∧
    ∃ e, (storeLocally fs m c d ts date).1.error = some e := by
  rcases storeLocally_cases fs m c d ts date with ⟨heq, -⟩ | ⟨e, heq⟩
  · rw [heq] at h
    simp [localOutcome] at h
  · rw [heq]
    exact ⟨rfl, e, rfl⟩

theorem storeLocally_success_inv (fs : FS) (m c d ts date : String)
    (h : (storeLocally fs m c d ts date).1.method = "local_storage") :
    storeLocally fs m c d ts date =
      (localOutcome ("/app/data/machine_errors_" ++ date ++ ".json")
        ("/app/data/anythingllm_import_" ++ date ++ ".txt"),
       { fs with
          fileExists := true,
          content := (if fs.fileExists then fs.content else []) ++ [mkErrorData m c d ts],
          txtContent := fs.txtContent ++ "\n" ++
            (mkErrorData m c d ts).anythingllm_import_text ++ "\n" }) := by
  rcases storeLocally_cases fs m c d ts date with ⟨heq, -⟩ | ⟨e, heq⟩
  · exact heq
  · rw [heq] at h
    simp [failedOutcome] at h

theorem storeLocally_success_iff (fs : FS) (m c d ts date : String) :
    (storeLocally fs m c d ts date).1.success = false ↔
      (storeLocally fs m c d ts date).1.method = "failed" := by
  rcases storeLocally_cases fs m c d ts date with ⟨heq, -⟩ | ⟨e, heq⟩
  · rw [heq]
    simp [localOutcome]
  · rw [heq]
    simp [failedOutcome]

/-! ## Lemmas connecting `sendMachineError` to the loop exit -/

theorem sendMachineError_api_exit {env : Nat → AttemptEvent} {amb : Option String}
    {mr k : Nat} {b : JsonBody} (fs : FS) (m c d ts date : String)
    (h : (runAttempts env amb mr (List.range mr)).2 = .apiSuccess k b) :
    sendMachineError mr amb env fs m c d ts date =
      { outcome := apiOutcome k b, fs := fs,
        trace := (runAttempts env amb mr (List.range mr)).1 } := by
  simp only [sendMachineError]
  rw [h]

theorem sendMachineError_fell {env : Nat → AttemptEvent} {amb : Option String}
    {mr : Nat} (fs : FS) (m c d ts date : String)
    (h : (runAttempts env amb mr (List.range mr)).2 = .fellThrough) :
    sendMachineError mr amb env fs m c d ts date =
      { outcome := (storeLocally fs m c d ts date).1,
        fs := (storeLocally fs m c d ts date).2,
        trace := (runAttempts env amb mr (List.range mr)).1 ++ [TraceEntry.localStore] } := by
  simp only [sendMachineError]
  rw [h]

theorem sendMachineError_method_api_inv {env : Nat → AttemptEvent} {amb : Option String}
    {mr : Nat} (fs : FS) (m c d ts date : String)
    (h : (sendMachineError mr amb env fs m c d ts date).outcome.method = "api") :
    ∃ k b, (runAttempts env amb mr (List.range mr)).2 = .apiSuccess k b := by
  cases hx : (runAttempts env amb mr (List.range mr)).2 with
  | apiSuccess k b => exact ⟨k, b, rfl⟩
  | fellThrough =>
    rw [sendMachineError_fell fs m c d ts date hx] at h
    rcases storeLocally_method_cases fs m c d ts date with hc | hc
    · exact absurd (hc.symm.trans h) (by decide)
    · exact absurd (hc.symm.trans h) (by decide)

theorem sendMachineError_method_local_fell {env : Nat → AttemptEvent} {amb : Option String}
    {mr : Nat} (fs : FS) (m c d ts date : String)
    (h : (sendMachineError mr amb env fs m c d ts date).outcome.method = "local_storage") :
    (runAttempts env amb mr (List.range mr)).2 = .fellThrough := by
  cases hx : (runAttempts env amb mr (List.range mr)).2 with
  | apiSuccess k b =>
    rw [sendMachineError_api_exit fs m c d ts date hx] at h
    simp [apiOutcome] at h
  | fellThrough => rfl

/-! ## Claim theorems -/

/-- C1 (short-circuit on success): for every attempt `k` with
`1 ≤ k ≤ max_retries`, if attempt `k` is reached (all earlier attempts
were retryable failures) and its POST returns status 200 with a body
that parses as JSON, then `send_machine_error` returns with
`method = "api"`, `success = true`, `attempt = k`, and no attempt
beyond `k` is issued. -/
theorem C1_short_circuit_on_success (mr : Nat) (amb : Option String)
    (env : Nat → AttemptEvent) (fs : FS) (m c d ts date : String)
    (k : Nat) (b : JsonBody) (hk1 : 1 ≤ k) (hk2 : k ≤ mr)
    (hprior : ∀ j, j < k - 1 → classify (env j) = .continueRetry)
    (hsucc : env (k - 1) = .resp 200 (some b)) :
    (sendMachineError mr amb env fs m c d ts date).outcome.method = "api" ∧
    (sendMachineError mr amb env fs m c d ts date).outcome.success = true ∧
    (sendMachineError mr amb env fs m c d ts date).outcome.attempt = some k ∧
    ∀ j ev, TraceEntry.httpCall j ev ∈ (sendMachineError mr amb env fs m c d ts date).trace →
      j ≤ k := by
  have hcl : classify (env (k - 1)) = .succeedReturn b := by
    rw [classify_succeedReturn_iff]
    exact hsucc
  have hreach := runAttempts_reach_succeed env amb mr b mr 0 (k - 1) (Nat.zero_le _)
    (by omega) (fun j _ hj2 => hprior j hj2) hcl
  rw [← List.range_eq_range'] at hreach
  have hk' : k - 1 + 1 = k := by omega
  rw [hk'] at hreach
  have heq := sendMachineError_api_exit fs m c d ts date hreach.1
  rw [heq]
  exact ⟨rfl, rfl, rfl, fun j ev hm2 => hreach.2 j ev hm2⟩

/-- Witness for C1: `max_retries = 3`, attempt 1 gets HTTP 500, attempt
2 gets `200 {"textResponse":"ack",...}` — the outcome is `api` with
`attempt = 2`. -/
theorem C1_witness :
    (sendMachineError 3 none envFailThenOk fsOk "M" "E" "d" "t" "D").outcome.method = "api" ∧
    (sendMachineError 3 none envFailThenOk fsOk "M" "E" "d" "t" "D").outcome.attempt =
      some 2 :=
  ⟨(C1_short_circuit_on_success 3 none envFailThenOk fsOk "M" "E" "d" "t" "D" 2 bodyAck
      (by decide) (by decide)
      (fun j hj => by
        have hj0 : j = 0 := by omega
        subst hj0
        decide)
      (by decide)).1,
   (C1_short_circuit_on_success 3 none envFailThenOk fsOk "M" "E" "d" "t" "D" 2 bodyAck
      (by decide) (by decide)
      (fun j hj => by
        have hj0 : j = 0 := by omega
        subst hj0
        decide)
      (by decide)).2.2.1⟩

/-- C2 (DeliveryOutcome invariant): an outcome with `method = "api"`
implies exactly one successful HTTP call occurred and `_store_locally`
was never invoked; an outcome with `method = "local_storage"` implies
every one of the `max_retries` attempts failed retryably (or a
non-retryable exception aborted the loop after only retryable
failures), and the report was appended to the day's JSON array and to
the day's import text file. -/
theorem C2_delivery_outcome_invariant (mr : Nat) (amb : Option String)
    (env : Nat → AttemptEvent) (fs : FS) (m c d ts date : String) :
    ((sendMachineError mr amb env fs m c d ts date).outcome.method = "api" →
      ((sendMachineError mr amb env fs m c d ts date).trace.filter isSuccCall).length = 1 ∧
      TraceEntry.localStore ∉ (sendMachineError mr amb env fs m c d ts date).trace) ∧
    ((sendMachineError mr amb env fs m c d ts date).outcome.method = "local_storage" →
      ((∀ i, i < mr → classify (env i) = .continueRetry) ∨
        (∃ i, i < mr ∧ classify (env i) = .breakLoop ∧
          ∀ j, j < i → classify (env j) = .continueRetry)) ∧
      (sendMachineError mr amb env fs m c d ts date).fs.content =
        (if fs.fileExists then fs.content else []) ++ [mkErrorData m c d ts] ∧
      (sendMachineError mr amb env fs m c d ts date).fs.txtContent =
        fs.txtContent ++ "\n" ++ (mkErrorData m c d ts).anythingllm_import_text ++ "\n") := by
  constructor
  · intro hm
    obtain ⟨k, b, hexit⟩ := sendMachineError_method_api_inv fs m c d ts date hm
    have heq := sendMachineError_api_exit fs m c d ts date hexit
    rw [heq]
    exact ⟨(runAttempts_filter_succ env amb mr (List.range mr)).2 k b hexit,
      runAttempts_no_localStore env amb mr (List.range mr)⟩
  · intro hm
    have hfell := sendMachineError_method_local_fell fs m c d ts date hm
    have heq := sendMachineError_fell fs m c d ts date hfell
    rw [heq] at hm
    have hstore := storeLocally_success_inv fs m c d ts date hm
    rw [heq]
    refine ⟨?_, ?_, ?_⟩
    · rw [List.range_eq_range'] at hfell
      rcases runAttempts_fellThrough_inv env amb mr mr 0 hfell with
        hall | ⟨i, _, hi, hib, hbelow⟩
      · exact Or.inl fun i hi => hall i (by omega) (by omega)
      · exact Or.inr ⟨i, by omega, hib, fun j hj => hbelow j (by omega) hj⟩
    · rw [hstore]
    · rw [hstore]

/-- Witness for C2: an always-succeeding endpoint gives exactly one
successful call; an always-500 endpoint with two retries appends the
report to the (initially absent) day file. -/
theorem C2_witness :
    ((sendMachineError 1 none envAlwaysOk fsOk "M" "E" "d" "t" "D").trace.filter
        isSuccCall).length = 1 ∧
    (sendMachineError 2 none envAlways500 fsOk "M" "E" "d" "t" "D").fs.content =
      (if fsOk.fileExists then fsOk.content else []) ++ [mkErrorData "M" "E" "d" "t"] :=
  ⟨((C2_delivery_outcome_invariant 1 none envAlwaysOk fsOk "M" "E" "d" "t" "D").1
      (by decide)).1,
   ((C2_delivery_outcome_invariant 2 none envAlways500 fsOk "M" "E" "d" "t" "D").2
      (by decide)).2.1⟩

/-- C3 (backoff selection, evaluated at the failing input): with
`max_retries = 3`, every attempt timing out, and `send_machine_error`
not itself called from inside an `except` block, the waits between
attempts are 2 seconds, not the 5 seconds the claim requires for
timeouts: at line 274 `sys.exc_info()` is already `(None, None, None)`
(Python 3 clears the handled exception when its `except` block exits),
so `'Timeout' in str(None)` is false. -/
theorem C3_timeout_backoff_behaviour :
    (sendMachineError 3 none envAlwaysTimeout fsOk "M" "E" "d" "t" "D").trace =
      [TraceEntry.httpCall 1 .timeout, TraceEntry.wait 2,
       TraceEntry.httpCall 2 .timeout, TraceEntry.wait 2,
       TraceEntry.httpCall 3 .timeout, TraceEntry.localStore] ∧
    waitSeconds none = 2 := by decide

/-- C4 (non-retryable abort): if attempt `k < max_retries` is reached
after only retryable failures and raises an unexpected exception
(neither timeout nor connection error nor JSON-decode failure), no
attempt `k+1
..max_retries` is issued, and the call immediately falls
through to `_store_locally`, returning its outcome; the trace ends with
attempt `k` directly followed by the local store (no sleep between). -/
theorem C4_nonretryable_abort (mr : Nat) (amb : Option String) (env : Nat → AttemptEvent)
    (fs : FS) (m c d ts date : String) (k : Nat) (msg : String)
    (hk1 : 1 ≤ k) (hk2 : k < mr)
    (hprior : ∀ j, j < k - 1 → classify (env j) = .continueRetry)
    (hexc : env (k - 1) = .otherError msg) :
    (∀ j ev, TraceEntry.httpCall j ev ∈ (sendMachineError mr amb env fs m c d ts date).trace →
        j ≤ k) ∧
    (sendMachineError mr amb env fs m c d ts date).outcome =
      (storeLocally fs m c d ts date).1 ∧
    ∃ pre, (sendMachineError mr amb env fs m c d ts date).trace =
        pre ++ [TraceEntry.httpCall k (AttemptEvent.otherError msg), TraceEntry.localStore] := by
  have hcl : classify (env (k - 1)) = .breakLoop := by
    rw [hexc]
    rfl
  have hreach := runAttempts_reach_break env amb mr mr 0 (k - 1) (Nat.zero_le _) (by omega)
    (fun j _ hj2 => hprior j hj2) hcl
  rw [← List.range_eq_range'] at hreach
  have hk' : k - 1 + 1 = k := by omega
  rw [hk'] at hreach
  obtain ⟨hfell, pre, hpre, hprecalls⟩ := hreach
  have heq := sendMachineError_fell fs m c d ts date hfell
  rw [heq]
  refine ⟨?_, rfl, ?_⟩
  · intro j ev hm2
    simp only [List.mem_append, List.mem_singleton] at hm2
    rcases hm2 with h1 | h2
    · rw [hpre] at h1
      simp only [List.mem_append, List.mem_singleton] at h1
      rcases h1 with h1a | h1b
      · exact le_trans (hprecalls j ev h1a) (by omega)
      · rw [TraceEntry.httpCall.injEq] at h1b
        omega
    · simp at h2
  · refine ⟨pre, ?_⟩
    rw [hpre, hexc]
    simp

/-- Witness for C4: `max_retries = 3`, attempt 1 raises a `KeyError` —
the outcome is the local-store outcome and only attempt 1 was issued. -/
theorem C4_witness :
    (sendMachineError 3 none envFatalFirst fsOk "M" "E" "d" "t" "D").outcome =
      (storeLocally fsOk "M" "E" "d" "t" "D").1 ∧
    ∀ j ev, TraceEntry.httpCall j ev ∈
        (sendMachineError 3 none envFatalFirst fsOk "M" "E" "d" "t" "D").trace → j ≤ 1 :=
  ⟨(C4_nonretryable_abort 3 none envFatalFirst fsOk "M" "E" "d" "t" "D" 1
      "KeyError: misconfigured payload" (by decide) (by decide)
      (fun j hj => absurd hj (by omega)) (by decide)).2.1,
   (C4_nonretryable_abort 3 none envFatalFirst fsOk "M" "E" "d" "t" "D" 1
      "KeyError: misconfigured payload" (by decide) (by decide)
      (fun j hj => absurd hj (by omega)) (by decide)).1⟩

/-- C5 counterexample: a 200 response whose JSON body has no
`textResponse` key is nevertheless returned as a successful `api`
outcome (the code reads `result.get('textResponse', '')`, it never
requires the key), refuting "a 200 response whose JSON body lacks
textResponse is not treated as a successful delivery". -/
theorem C5_counterexample :
    bodyNoText.textResponse = none ∧
    envNoTextBody 0 = AttemptEvent.resp 200 (some bodyNoText) ∧
    (sendMachineError 1 none envNoTextBody fsOk "M1" "E1" "d" "t" "D").outcome.method =
      "api" ∧
    (sendMachineError 1 none envNoTextBody fsOk "M1" "E1" "d" "t" "D").outcome.success =
      true ∧
    (sendMachineError 1 none envNoTextBody fsOk "M1" "E1" "d" "t"
      "D").outcome.anythingllm_response = some "" := by
  decide

/-- C5 (amended): `send_machine_error` returns `method = "api"` only
when some attempt's response had status 200 and a JSON-parseable body;
`textResponse` is not required — when absent, the outcome's
`anythingllm_response` defaults to the empty string. -/
theorem C5_success_requires_parseable_json (mr : Nat) (amb : Option String)
    (env : Nat → AttemptEvent) (fs : FS) (m c d ts date : String)
    (h : (sendMachineError mr amb env fs m c d ts date).outcome.method = "api") :
    ∃ i b, i < mr ∧ env i = AttemptEvent.resp 200 (some b) ∧
      (sendMachineError mr amb env fs m c d ts date).outcome.attempt = some (i + 1) ∧
      (sendMachineError mr amb env fs m c d ts date).outcome.anythingllm_response =
        some (b.textResponse.getD "") := by
  obtain ⟨k, b, hexit⟩ := sendMachineError_method_api_inv fs m c d ts date h
  obtain ⟨i, hi, hk, hcl⟩ := runAttempts_apiSuccess_inv env amb mr (List.range mr) k b hexit
  rw [classify_succeedReturn_iff] at hcl
  have heq := sendMachineError_api_exit fs m c d ts date hexit
  refine ⟨i, b, by simpa using hi, hcl, ?_, ?_⟩
  · rw [heq, hk]
    rfl
  · rw [heq]
    rfl

/-- Witness for the amended C5: applied to the endpoint whose 200 body
has no `textResponse`. -/
theorem C5_witness :
    ∃ i b, i < 1 ∧ envNoTextBody i = AttemptEvent.resp 200 (some b) ∧
      (sendMachineError 1 none envNoTextBody fsOk "M1" "E1" "d" "t" "D").outcome.attempt =
        some (i + 1) ∧
      (sendMachineError 1 none envNoTextBody fsOk "M1" "E1" "d" "t"
        "D").outcome.anythingllm_response = some (b.textResponse.getD "") :=
  C5_success_requires_parseable_json 1 none envNoTextBody fsOk "M1" "E1" "d" "t" "D"
    (by decide)

/-- C6 (HTML-body rejection): when attempt `k < max_retries` is reached
after only retryable failures and returns status 200 with a body that
does not parse as JSON (e.g. an HTML page), attempt `k + 1` is issued
(the loop neither returns nor aborts), and the call never returns an
`api` outcome attributed to attempt `k`. -/
theorem C6_html_body_rejection (mr : Nat) (amb : Option String) (env : Nat → AttemptEvent)
    (fs : FS) (m c d ts date : String) (k : Nat)
    (hk1 : 1 ≤ k) (hk2 : k < mr)
    (hprior : ∀ j, j < k - 1 → classify (env j) = .continueRetry)
    (hhtml : env (k - 1) = AttemptEvent.resp 200 none) :
    TraceEntry.httpCall (k + 1) (env k) ∈
      (sendMachineError mr amb env fs m c d ts date).trace ∧
    ((sendMachineError mr amb env fs m c d ts date).outcome.method = "api" →
      (sendMachineError mr amb env fs m c d ts date).outcome.attempt ≠ some k) := by
  have hk_retry : classify (env (k - 1)) = .continueRetry := by
    rw [hhtml]
    rfl
  have hall : ∀ j, 0 ≤ j → j < k → classify (env j) = .continueRetry := by
    intro j _ hj
    rcases Nat.lt_or_ge j (k - 1) with hlt | hge
    · exact hprior j hlt
    · have hjk : j = k - 1 := by omega
      rw [hjk]
      exact hk_retry
  have hcall := runAttempts_reach_call env amb mr mr 0 k (Nat.zero_le _) (by omega) hall
  rw [← List.range_eq_range'] at hcall
  constructor
  · cases hx : (runAttempts env amb mr (List.range mr)).2 with
    | apiSuccess k' b =>
      rw [sendMachineError_api_exit fs m c d ts date hx]
      exact hcall
    | fellThrough =>
      rw [sendMachineError_fell fs m c d ts date hx]
      simp only [List.mem_append]
      exact Or.inl hcall
  · intro hm hatt
    obtain ⟨k', b, hexit⟩ := sendMachineError_method_api_inv fs m c d ts date hm
    have heq := sendMachineError_api_exit fs m c d ts date hexit
    rw [heq] at hatt
    have hkk : k' = k := by
      simpa [apiOutcome] using hatt
    obtain ⟨i, hi, hk2', hcl⟩ :=
      runAttempts_apiSuccess_inv env amb mr (List.range mr) k' b hexit
    rw [classify_succeedReturn_iff] at hcl
    have hik : i = k - 1 := by omega
    rw [hik, hhtml] at hcl
    simp at hcl

/-- Witness for C6: attempt 1 returns 200 with an unparseable (HTML)
body, `max_retries = 2` — attempt 2 is issued. -/
theorem C6_witness :
    TraceEntry.httpCall 2 (envHtmlFirst 1) ∈
      (sendMachineError 2 none envHtmlFirst fsOk "M" "E" "d" "t" "D").trace :=
  (C6_html_body_rejection 2 none envHtmlFirst fsOk "M" "E" "d" "t" "D" 1
    (by decide) (by decide) (fun j hj => absurd hj (by omega)) (by decide)).1

/-- C7 counterexample: a day file that exists but whose open/read
raises does not lead to a fresh empty array — `_store_locally` returns
`method = "failed"`, refuting "if the file is absent or unreadable the
operation starts from an empty array, so the write still succeeds". -/
theorem C7_counterexample :
    fsUnreadable.fileExists = true ∧
    fsUnreadable.readRaises.isSome = true ∧
    (storeLocally fsUnreadable "M" "E" "d" "t" "D").1.method = "failed" ∧
    (storeLocally fsUnreadable "M" "E" "d" "t" "D").1.success = false := by
  decide

/-- C7 (amended): when the day's JSON file is absent, `_store_locally`
starts from the empty array and (directory creation and both writes
succeeding) succeeds with `method = "local_storage"`; when the file
exists but reading it raises, the whole operation fails with
`method = "failed"`, the raised message in `error`, and the filesystem
unchanged. -/
theorem C7_prior_content_handling (fs : FS) (m c d ts date : String) :
    (fs.mkdirsRaises = none → fs.fileExists = false → fs.writeRaises = none →
      fs.appendRaises = none →
      (storeLocally fs m c d ts date).1.method = "local_storage" ∧
      (storeLocally fs m c d ts date).1.success = true ∧
      (storeLocally fs m c d ts date).2.content = [mkErrorData m c d ts]) ∧
    (∀ e, fs.mkdirsRaises = none → fs.fileExists = true → fs.readRaises = some e →
      (storeLocally fs m c d ts date).1.method = "failed" ∧
      (storeLocally fs m c d ts date).1.success = false ∧
      (storeLocally fs m c d ts date).1.error = some e ∧
      (storeLocally fs m c d ts date).2 = fs) := by
  constructor
  · intro h1 h2 h3 h4
    have h2' : fs.fileExists = true → fs.readRaises = none := by
      intro hx
      rw [hx] at h2
      cases h2
    have heq := storeLocally_ok fs m c d ts date h1 h2' h3 h4
    rw [heq]
    refine ⟨rfl, rfl, ?_⟩
    rw [h2]
    simp
  · intro e h1 h2 h3
    have heq := storeLocally_fail_read fs m c d ts date e h1 h2 h3
    rw [heq]
    exact ⟨rfl, rfl, rfl, rfl⟩

/-- Witness for the amended C7: absent file — stored, one-element
array; unreadable file — failed with the read error surfaced. -/
theorem C7_witness :
    ((storeLocally fsOk "M" "E" "d" "t" "D").1.method = "local_storage" ∧
      (storeLocally fsOk "M" "E" "d" "t" "D").2.content = [mkErrorData "M" "E" "d" "t"]) ∧
    ((storeLocally fsUnreadable "M2" "E2" "d2" "t2" "D2").1.method = "failed" ∧
      (storeLocally fsUnreadable "M2" "E2" "d2" "t2" "D2").1.error =
        some "PermissionError: [Errno 13] machine_errors.json") :=
  ⟨⟨((C7_prior_content_handling fsOk "M" "E" "d" "t" "D").1 rfl rfl rfl rfl).1,
    ((C7_prior_content_handling fsOk "M" "E" "d" "t" "D").1 rfl rfl rfl rfl).2.2⟩,
   ⟨((C7_prior_content_handling fsUnreadable "M2" "E2" "d2" "t2" "D2").2
      "PermissionError: [Errno 13] machine_errors.json" rfl rfl rfl).1,
    ((C7_prior_content_handling fsUnreadable "M2" "E2" "d2" "t2" "D2").2
      "PermissionError: [Errno 13] machine_errors.json" rfl rfl rfl).2.2.1⟩⟩

/-- C8 (totality of deliver): for every report, endpoint behaviour and
filesystem behaviour, `send_machine_error` returns a structured outcome
(the embedding it is a total function into `RunResult`, mirroring that
every path of the source returns a dictionary), whose `method` is one
of `"api"`, `"local_storage"`, `"failed"`; and when local storage
itself fails, the outcome has `success = false` and carries the error
message. -/
theorem C8_totality_of_deliver (mr : Nat) (amb : Option String) (env : Nat → AttemptEvent)
    (fs : FS) (m c d ts date : String) :
    ((sendMachineError mr amb env fs m c d ts date).outcome.method = "api" ∨
      (sendMachineError mr amb env fs m c d ts date).outcome.method = "local_storage" ∨
      (sendMachineError mr amb env fs m c d ts date).outcome.method = "failed") ∧
    ((sendMachineError mr amb env fs m c d ts date).outcome.method = "failed" →
      (sendMachineError mr amb env fs m c d ts date).outcome.success = false ∧
      ∃ e, (sendMachineError mr amb env fs m c d ts date).outcome.error = some e) := by
  cases hx : (runAttempts env amb mr (List.range mr)).2 with
  | apiSuccess k b =>
    rw [sendMachineError_api_exit fs m c d ts date hx]
    refine ⟨Or.inl rfl, ?_⟩
    intro h
    simp [apiOutcome] at h
  | fellThrough =>
    rw [sendMachineError_fell fs m c d ts date hx]
    constructor
    · rcases storeLocally_method_cases fs m c d ts date with hc | hc
      · exact Or.inr (Or.inl hc)
      · exact Or.inr (Or.inr hc)
    · intro h
      exact storeLocally_failed_char fs m c d ts date h

/-- Witness for C8: connection refused on both attempts plus an
uncreatable data directory — the outcome is `failed` with
`success = false` and the error message present. -/
theorem C8_witness :
    (sendMachineError 2 none envConnRefused fsBroken "M" "E" "d" "t" "D").outcome.success =
      false ∧
    ∃ e, (sendMachineError 2 none envConnRefused fsBroken "M" "E" "d" "t"
      "D").outcome.error = some e :=
  (C8_totality_of_deliver 2 none envConnRefused fsBroken "M" "E" "d" "t" "D").2 (by decide)

/-- C9 (implicit, `max_retries = 0`): `for attempt in range(0)` makes
no HTTP attempt at all; the call goes directly to `_store_locally` and
returns its outcome — `method = "local_storage"` when the write
succeeds. -/
theorem C9_zero_retries_direct_local (amb : Option String) (env : Nat → AttemptEvent)
    (fs : FS) (m c d ts date : String) :
    (sendMachineError 0 amb env fs m c d ts date).trace = [TraceEntry.localStore] ∧
    (∀ j ev, TraceEntry.httpCall j ev ∉ (sendMachineError 0 amb env fs m c d ts date).trace) ∧
    (sendMachineError 0 amb env fs m c d ts date).outcome =
      (storeLocally fs m c d ts date).1 ∧
    (fs.mkdirsRaises = none → (fs.fileExists = true → fs.readRaises = none) →
      fs.writeRaises = none → fs.appendRaises = none →
      (sendMachineError 0 amb env fs m c d ts date).outcome.method = "local_storage") := by
  have hx : (runAttempts env amb 0 (List.range 0)).2 = .fellThrough := rfl
  have heq := sendMachineError_fell fs m c d ts date hx
  rw [heq]
  refine ⟨rfl, ?_, rfl, ?_⟩
  · intro j ev hm2
    simp [runAttempts] at hm2
  · intro h1 h2 h3 h4
    have heqs := storeLocally_ok fs m c d ts date h1 h2 h3 h4
    rw [heqs]
    rfl

/-- Witness for C9: a healthy endpoint is never contacted when
`max_retries = 0`; the report is stored locally. -/
theorem C9_witness :
    (sendMachineError 0 none envAlwaysOk fsOk "M" "E" "d" "t" "D").outcome.method =
      "local_storage" :=
  (C9_zero_retries_direct_local none envAlwaysOk fsOk "M" "E" "d" "t" "D").2.2.2
    rfl (by decide) rfl rfl

/-- C10 (implicit outcome shape): despite the `Optional` annotation,
every path of `send_machine_error` returns a dictionary (the embedding
is total into `RunResult`); the returned outcome always carries a
boolean `success` and a `method` among `"api"`, `"local_storage"`,
`"failed"`, and `success` is `false` exactly when `method` is
`"failed"`. -/
theorem C10_outcome_shape_invariant (mr : Nat) (amb : Option String)
    (env : Nat → AttemptEvent) (fs : FS) (m c d ts date : String) :
    ((sendMachineError mr amb env fs m c d ts date).outcome.method = "api" ∨
      (sendMachineError mr amb env fs m c d ts date).outcome.method = "local_storage" ∨
      (sendMachineError mr amb env fs m c d ts date).outcome.method = "failed") ∧
    ((sendMachineError mr amb env fs m c d ts date).outcome.success = false ↔
      (sendMachineError mr amb env fs m c d ts date).outcome.method = "failed") := by
  cases hx : (runAttempts env amb mr (List.range mr)).2 with
  | apiSuccess k b =>
    rw [sendMachineError_api_exit fs m c d ts date hx]
    refine ⟨Or.inl rfl, ?_, ?_⟩
    · intro h
      simp [apiOutcome] at h
    · intro h
      simp [apiOutcome] at h
  | fellThrough =>
    rw [sendMachineError_fell fs m c d ts date hx]
    refine ⟨?_, storeLocally_success_iff fs m c d ts date⟩
    rcases storeLocally_method_cases fs m c d ts date with hc | hc
    · exact Or.inr (Or.inl hc)
    · exact Or.inr (Or.inr hc)
